import Mathlib

/-!
Verification of `src/zucchini/gradescope.py`: the grade-to-Gradescope-schema
mapping and the autograder-archive assembly.

The embedding follows the source file closely.  Code of the repository that the
source imports but that is not part of the sources at hand
(`zucchini/utils.py`: `ConfigDictMixin`, `ConfigDictNoMangleMixin`,
`datetime_from_string`; `zucchini/constants.py`: the two path constants) is
modelled from the specification; each such definition carries a doc comment
starting with `Modelled from the spec:`.
-/

namespace Zucchini

/-- A numeric value as it flows through the Python code: either a value in the
grade engine's exact representation (`Fraction`-like, modelled by the rational
it denotes) or the image of a value under Python's `float(...)`.  The rounding
a real `float` conversion performs is abstracted away (the spec leaves the
conversion's rounding behaviour unspecified); what the claims need is which
values have been float-coerced, which the constructor records. -/
inductive PyNum where
  | rat (q : ℚ)
  | float (q : ℚ)
deriving DecidableEq, Repr

/-- The rational a `PyNum` denotes. -/
def PyNum.toRat : PyNum → ℚ
  | .rat q => q
  | .float q => q

/-- Whether the value is a float-coerced one. -/
def PyNum.isFloat : PyNum → Bool
  | .rat _ => false
  | .float _ => true

/-- Python's built-in `float(x)` applied to a numeric value. -/
def pyFloat (v : PyNum) : PyNum := .float v.toRat

/-- A JSON value (the shape `json.load` produces / `json.dump` consumes).
Numbers carry a `PyNum` so that exact and float-coerced values can be told
apart in statements; `json.dump` writes only the denoted number. -/
inductive JsonVal where
  | null
  | bool (b : Bool)
  | num (v : PyNum)
  | str (s : String)
  | arr (xs : List JsonVal)
  | obj (fields : List (String × JsonVal))

/-- Lookup of a key in a JSON object's field list (Python `dict` lookup;
objects with duplicate keys are outside the model). -/
def jsonGet (fields : List (String × JsonVal)) (key : String) : Option JsonVal :=
  match fields with
  | [] => none
  | (k, v) :: rest => if k = key then some v else jsonGet rest key

/-! ## The grade source (external collaborator)

`grading_manager.Grade` and the computed-grade tree it exposes are external
read-only collaborators; the spec fixes their shape (§3). -/

/-- A graded part: the finest-grained scored unit. -/
structure Part where
  name : String
  points_got : PyNum
  points_possible : PyNum
  deductions : List String
  log : String
deriving DecidableEq, Repr

/-- A component: a named ordered list of parts. -/
structure Component where
  name : String
  parts : List Part
deriving DecidableEq, Repr

/-- A whole-submission point adjustment. -/
structure Penalty where
  name : String
  points_delta : PyNum
deriving DecidableEq, Repr

/-- The computed grade tree: ordered penalties and ordered components. -/
structure ComputedGrade where
  penalties : List Penalty
  components : List Component
deriving DecidableEq, Repr

/-- The opaque grade source: `score()`, `computed_grade()` and
`serialized_component_grades()` become fields. -/
structure Grade where
  score : PyNum
  computed_grade : ComputedGrade
  serialized_component_grades : JsonVal

/-- Modelled from the spec: `grading_manager.Grade.to_float` is not in the
sources at hand; the spec (§3, LineItem invariant) says per-item scores are
"coerced from whatever numeric representation the grade engine used ... to a
floating-point external representation". -/
def Grade.to_float (_g : Grade) (v : PyNum) : PyNum := pyFloat v

/-! ## Line items (`GradescopeAutograderTestOutput`) -/

/-- One line item of the Gradescope output ("one test"), the in-memory object.
A `none` field models a Python attribute that is absent or `None`. -/
structure GradescopeAutograderTestOutput where
  name : Option String
  score : Option PyNum
  max_score : Option PyNum
  output : Option String
deriving DecidableEq, Repr

/-- `GradescopeAutograderTestOutput.__init__`.  Note that the Python
constructor accepts a `name` argument but never assigns `self.name`; the
argument is silently dropped, so the attribute is absent (`none`) on every
constructed object.  `score` and `max_score` are float-coerced when present. -/
def GradescopeAutograderTestOutput.init
    (name : Option String) (score : Option PyNum)
    (max_score : Option PyNum) (output : Option String) :
    GradescopeAutograderTestOutput :=
  { name := none
    score := score.map pyFloat
    max_score := max_score.map pyFloat
    output := output }

/-- Modelled from the spec: the base `ConfigDictMixin.to_config_dict`
(`utils.py`, not in the sources at hand) turns the object's assigned
attributes into a config dict, "omitting a field entirely when its value is
absent" (§4.2); `ConfigDictNoMangleMixin` keeps attribute names unchanged.
Entries appear in attribute-assignment order.  `name := none` stands for the
attribute never having been assigned (see `init`). -/
def GradescopeAutograderTestOutput.to_config_dict
    (t : GradescopeAutograderTestOutput) : List (String × JsonVal) :=
  (match t.name with | none => [] | some n => [("name", JsonVal.str n)]) ++
  (match t.score with | none => [] | some v => [("score", JsonVal.num v)]) ++
  (match t.max_score with | none => [] | some v => [("max_score", JsonVal.num v)]) ++
  (match t.output with | none => [] | some s => [("output", JsonVal.str s)])

/-! ## The output document (`GradescopeAutograderOutput`) -/

/-- The top-level Gradescope output document. -/
structure GradescopeAutograderOutput where
  score : Option PyNum
  tests : Option (List GradescopeAutograderTestOutput)
  extra_data : Option JsonVal

/-- `GradescopeAutograderOutput.__init__`: `score` and `extra_data` are stored
unchanged; a present `tests` list is stored, a `None` one as `none`.  The
Python code re-builds each element of a present `tests` list with
`GradescopeAutograderTestOutput.from_config_dict`; that re-construction is
modelled as the identity on already-constructed line items (Modelled from the
spec: the decode contract of `ConfigDictMixin`, `utils.py` not in the sources
at hand, "accepts absent fields as unset and coerces present numeric fields to
floating point", which leaves the already-coerced items produced by
`from_grade` unchanged, and §4.4 states the flattening pipeline is total). -/
def GradescopeAutograderOutput.init
    (score : Option PyNum) (tests : Option (List GradescopeAutograderTestOutput))
    (extra_data : Option JsonVal) : GradescopeAutograderOutput :=
  { score := score, tests := tests, extra_data := extra_data }

/-- `GradescopeAutograderOutput.to_config_dict`: the base mixin dict (omit
absent attributes; Modelled from the spec for the missing `utils.py`, as for
the line items) followed by the override visible in `gradescope.py`, which
rewrites the `tests` entry to a list of per-test config dicts only when the
raw value is truthy (a non-empty list).  A present empty list survives the
base dict, fails the truthiness guard, is left in place, and serializes to the
empty JSON array — which the single `arr (map ...)` branch below also yields,
so one branch covers both the rewritten and the raw-empty case. -/
def GradescopeAutograderOutput.to_config_dict
    (d : GradescopeAutograderOutput) : List (String × JsonVal) :=
  (match d.score with | none => [] | some v => [("score", JsonVal.num v)]) ++
  (match d.tests with
   | none => []
   | some ts =>
       [("tests", JsonVal.arr (ts.map fun t => JsonVal.obj t.to_config_dict))]) ++
  (match d.extra_data with | none => [] | some e => [("extra_data", e)])

/-! ## The flattening (`GradescopeAutograderOutput.from_grade`) -/

/-- The penalty loop of `from_grade`: each penalty with a non-zero
`points_delta` appends one line item with `name=penalty.name` (dropped by the
constructor) and `score=grade.to_float(penalty.points_delta)`; zero-delta
penalties append nothing. -/
def penaltyTests (grade : Grade) : List Penalty → List GradescopeAutograderTestOutput
  | [] => []
  | p :: rest =>
      (if p.points_delta.toRat ≠ 0 then
        [GradescopeAutograderTestOutput.init (some p.name)
          (some (grade.to_float p.points_delta)) none none]
      else []) ++ penaltyTests grade rest

/-- The body of the part loop of `from_grade`: the deductions prefix string
and the constructor call. -/
def partTest (grade : Grade) (component : Component) (part : Part) :
    GradescopeAutograderTestOutput :=
  let deductions :=
    if part.deductions ≠ [] then
      "Deductions: " ++ String.intercalate ", " part.deductions ++ "\n\n"
    else ""
  GradescopeAutograderTestOutput.init
    (some (component.name ++ ": " ++ part.name))
    (some (grade.to_float part.points_got))
    (some (grade.to_float part.points_possible))
    (some (deductions ++ part.log))

/-- The component loop of `from_grade`: for each component in order, one line
item per part in order. -/
def componentTests (grade : Grade) : List Component → List GradescopeAutograderTestOutput
  | [] => []
  | c :: rest => c.parts.map (partTest grade c) ++ componentTests grade rest

/-- `GradescopeAutograderOutput.from_grade`: score and extra data pass
through; the tests list is the penalty items followed by the part items. -/
def GradescopeAutograderOutput.from_grade (grade : Grade) : GradescopeAutograderOutput :=
  GradescopeAutograderOutput.init (some grade.score)
    (some (penaltyTests grade grade.computed_grade.penalties ++
           componentTests grade grade.computed_grade.components))
    (some grade.serialized_component_grades)

/-! ## Spec-side views of the flattening

These definitions spell out, following the spec's words, the line items the
flattening is expected to produce; the theorems below compare them with what
`from_grade` builds. -/

/-- The line item the code builds for a non-zero penalty: `score` is the delta
converted to floating point, `max_score` and `output` are absent (and the name
the loop passes is dropped by the constructor, see `init`). -/
def penaltyItemSpec (p : Penalty) : GradescopeAutograderTestOutput :=
  { name := none
    score := some (PyNum.float p.points_delta.toRat)
    max_score := none
    output := none }

/-- The spec's rendering of a part's `output` (§4.4 step 4): the deductions
joined with `", "` under a `"Deductions: "` header and a blank line, prepended
to the log when the deduction list is non-empty; exactly the log otherwise. -/
def partOutputSpec (p : Part) : String :=
  if p.deductions = [] then p.log
  else "Deductions: " ++ String.intercalate ", " p.deductions ++ "\n\n" ++ p.log

/-- The line item the code builds for a part: float-coerced score and maximum
and the rendered output (the `"<component>: <part>"` name the loop passes is
dropped by the constructor, see `init`). -/
def partItemSpec (p : Part) : GradescopeAutograderTestOutput :=
  { name := none
    score := some (PyNum.float p.points_got.toRat)
    max_score := some (PyNum.float p.points_possible.toRat)
    output := some (partOutputSpec p) }

/-- A grade with one component `"Warmup"` holding one part `"Part 1"`: the
failing input for claim C1. -/
def warmupGrade : Grade :=
  { score := .rat 100
    computed_grade :=
      { penalties := []
        components :=
          [{ name := "Warmup"
             parts := [{ name := "Part 1", points_got := .rat 1,
                         points_possible := .rat 1, deductions := [],
                         log := "" }] }] }
    serialized_component_grades := .null }

/-- A parsed timestamp. -/
structure DateTime where
  year : ℕ
  month : ℕ
  day : ℕ
  hour : ℕ
  minute : ℕ
  second : ℕ
deriving DecidableEq, Repr

/-- The numeric value of two decimal digit characters. -/
def twoDigits (a b : Char) : Option ℕ :=
  if a.isDigit ∧ b.isDigit then
    some ((a.toNat - 48) * 10 + (b.toNat - 48))
  else none

/-- The numeric value of four decimal digit characters. -/
def fourDigits (a b c d : Char) : Option ℕ :=
  if a.isDigit ∧ b.isDigit ∧ c.isDigit ∧ d.isDigit then
    some ((a.toNat - 48) * 1000 + (b.toNat - 48) * 100 +
      (c.toNat - 48) * 10 + (d.toNat - 48))
  else none

/-- Modelled from the spec: `utils.datetime_from_string` is not in the sources
at hand.  The spec says `created_at` "is parsed from the platform's timestamp
string format into an internal timestamp value (fails with SchemaError on
unparsable format)", and its round-trip example is `"2021-01-01T00:00:00Z"`;
the model parses exactly that shape, with in-range fields, and rejects
everything else. -/
def datetime_from_string (s : String) : Option DateTime :=
  match s.toList with
  | [y1, y2, y3, y4, '-', m1, m2, '-', d1, d2, 'T',
     h1, h2, ':', n1, n2, ':', c1, c2, 'Z'] =>
      match fourDigits y1 y2 y3 y4, twoDigits m1 m2, twoDigits d1 d2,
          twoDigits h1 h2, twoDigits n1 n2, twoDigits c1 c2 with
      | some y, some mo, some da, some ho, some mi, some se =>
          if 1 ≤ mo ∧ mo ≤ 12 ∧ 1 ≤ da ∧ da ≤ 31 ∧ ho ≤ 23 ∧ mi ≤ 59 ∧ se ≤ 59 then
            some { year := y, month := mo, day := da,
                   hour := ho, minute := mi, second := se }
          else none
      | _, _, _, _, _, _ => none
  | _ => none

/-- Truncation toward zero of a rational, what Python's `int()` does to a
number (`int(2.5) == 2`, `int(-2.5) == -2`). -/
def ratTrunc (q : ℚ) : ℤ := q.num.tdiv q.den

/-- The numeric value of a list of decimal digit characters (none when the
list is empty or holds a non-digit). -/
def decimalNat (cs : List Char) : Option ℕ :=
  if cs = [] then none
  else if cs.all (fun c => c.isDigit) then
    some (cs.foldl (fun n c => n * 10 + (c.toNat - 48)) 0)
  else none

/-- Python `int(s)` on a string: an optionally signed decimal integer literal,
`ValueError` otherwise (Python's tolerance for surrounding whitespace and
underscores is outside the model; no claim depends on it). -/
def pyIntOfString (s : String) : Option ℤ :=
  match s.toList with
  | '-' :: rest => (decimalNat rest).map (fun n => -(n : ℤ))
  | '+' :: rest => (decimalNat rest).map (fun n => (n : ℤ))
  | cs => (decimalNat cs).map (fun n => (n : ℤ))

/-- Python `int(x)` on a JSON-decoded value: numbers truncate toward zero,
strings parse as integer literals, booleans count as 0/1, everything else
(`None`, arrays, objects) raises `TypeError`. -/
def pyInt : JsonVal → Option ℤ
  | .num v => some (ratTrunc v.toRat)
  | .str s => pyIntOfString s
  | .bool b => some (if b then 1 else 0)
  | _ => none

/-- The failures `GradescopeMetadata.__init__` can raise: a missing required
key (`KeyError`) or a value the coercion rejects (`ValueError`/`TypeError`);
the spec's error taxonomy folds both into `SchemaError`. -/
inductive SchemaError where
  | missingKey (key : String)
  | badValue (key : String)
deriving DecidableEq, Repr

/-- The parsed submission metadata. -/
structure GradescopeMetadata where
  id : ℤ
  created_at : DateTime
  assignment_id : ℤ
deriving DecidableEq, Repr

/-- `GradescopeMetadata.__init__`: `setattr(self, attr, type_(json_dict[attr]))`
over `_ATTRS = {id: int, created_at: datetime_from_string, assignment_id: int}`
in insertion order.  A missing key raises (`KeyError`), a failing coercion
raises (`ValueError`/`TypeError`); both surface here as `SchemaError`. -/
def GradescopeMetadata.ofJson (j : List (String × JsonVal)) :
    Except SchemaError GradescopeMetadata :=
  match jsonGet j "id" with
  | none => .error (.missingKey "id")
  | some v1 =>
    match pyInt v1 with
    | none => .error (.badValue "id")
    | some idn =>
      match jsonGet j "created_at" with
      | none => .error (.missingKey "created_at")
      | some v2 =>
        match v2 with
        | JsonVal.str s =>
          (match datetime_from_string s with
          | none => .error (.badValue "created_at")
          | some dt =>
            match jsonGet j "assignment_id" with
            | none => .error (.missingKey "assignment_id")
            | some v3 =>
              match pyInt v3 with
              | none => .error (.badValue "assignment_id")
              | some an => .ok { id := idn, created_at := dt, assignment_id := an })
        | _ => .error (.badValue "created_at")

/-! ## The archive assembler (`GradescopeAutograderZip`) -/

/-- Modelled from the spec: `constants.ASSIGNMENT_CONFIG_FILE` is not in the
sources at hand; "the assignment configuration file, read from a fixed
well-known relative path under the project root".  Its concrete name is
immaterial to the claims. -/
def ASSIGNMENT_CONFIG_FILE : String := "zucchini.yml"

/-- Modelled from the spec: `constants.ASSIGNMENT_FILES_DIRECTORY` is not in
the sources at hand; the "fixed well-known assignment-files directory".  Its
concrete name is immaterial to the claims. -/
def ASSIGNMENT_FILES_DIRECTORY : String := "grading-files"

/-- The `SETUP_SH` constant of `gradescope.py`, verbatim. -/
def SETUP_SH : String :=
  "#!/bin/bash\nset -e\n\napt-get update\napt-get install -y python3 python3-pip\npip3 install zucchini\n"

/-- The `RUN_AUTOGRADER` constant of `gradescope.py`, verbatim. -/
def RUN_AUTOGRADER : String :=
  "#!/bin/bash\nset -e\nset -o pipefail\n\ncd /autograder/source\nzucc grade-submission /autograder/submission \\\n    | zucc gradescope bridge /autograder/submission_metadata.json \\\n    > /autograder/results/results.json\n"

/-- Whether `path` lies strictly below directory `dir` (compared on the
character lists of the two relative paths). -/
def isUnder (dir path : String) : Bool :=
  (dir ++ "/").toList.isPrefixOf path.toList

/-- A project directory rooted at `self.path`: the regular files it holds, in
the order `os.walk` enumerates them, each with its content (`none` for a file
that exists but cannot be read), plus any directories that exist without
holding a file.  All paths are relative to the root, as in the source, whose
`_relative_path`/`_real_path` translate between the relative and absolute
forms. -/
structure FileSystem where
  files : List (String × Option String)
  emptyDirs : List String

/-- `os.path.exists` for a directory: it exists when listed or when some file
lies under it. -/
def FileSystem.dirExists (fs : FileSystem) (dir : String) : Bool :=
  fs.emptyDirs.contains dir || fs.files.any (fun f => isUnder dir f.1)

/-- `os.walk` restricted to the files below `dir`, in walk order (what
`_write_dir` enumerates). -/
def FileSystem.walkFiles (fs : FileSystem) (dir : String) :
    List (String × Option String) :=
  fs.files.filter (fun f => isUnder dir f.1)

/-- Reading one file, as `zipfile.write` does: `none` (an `IOError`) when the
file is missing or unreadable. -/
def FileSystem.readFile (fs : FileSystem) (path : String) : Option String :=
  match fs.files.find? (fun f => f.1 == path) with
  | some (_, some c) => some c
  | _ => none

/-- One archive entry: relative path and content. -/
abbrev ZipEntry := String × String

/-- The one failure `write_zip` can raise: an `IOError` from a read. -/
inductive ZipError where
  | ioFailure
deriving DecidableEq, Repr

/-- `_write_dir`'s loop over the walked files: each is added to the archive in
order; the first unreadable file raises, keeping the entries already written.
Returns the written entries and whether the loop completed. -/
def writeWalked : List (String × Option String) → List ZipEntry × Bool
  | [] => ([], true)
  | (_, none) :: _ => ([], false)
  | (p, some c) :: rest =>
      let r := writeWalked rest
      ((p, c) :: r.1, r.2)

/-- `GradescopeAutograderZip.write_zip`.  `with ZipFile(file, 'w')` creates
(or truncates) the destination file at entry; on an exception inside the block
the context manager still closes the zip, so the destination is left holding
the entries written before the failure.  The first component is the call's
outcome — the propagated `IOError` or the finished entry list — and the second
is the content of the destination file after the call: the full archive on
success, a partial one on failure. -/
def write_zip (fs : FileSystem) : Except ZipError (List ZipEntry) × List ZipEntry :=
  match fs.readFile ASSIGNMENT_CONFIG_FILE with
  | none => (.error .ioFailure, [])
  | some cfg =>
    let r := writeWalked (if fs.dirExists ASSIGNMENT_FILES_DIRECTORY then
        fs.walkFiles ASSIGNMENT_FILES_DIRECTORY else [])
    if r.2 then
      (.ok ((ASSIGNMENT_CONFIG_FILE, cfg) :: r.1 ++
        [("setup.sh", SETUP_SH), ("run_autograder", RUN_AUTOGRADER)]),
       (ASSIGNMENT_CONFIG_FILE, cfg) :: r.1 ++
        [("setup.sh", SETUP_SH), ("run_autograder", RUN_AUTOGRADER)])
    else (.error .ioFailure, (ASSIGNMENT_CONFIG_FILE, cfg) :: r.1)

/-- A project with the config file and one assignment file `a/b.txt`: the
concrete input for the C7 and C10 witnesses. -/
def fsDemo : FileSystem :=
  { files := [(ASSIGNMENT_CONFIG_FILE, some "autograder-config"),
              (ASSIGNMENT_FILES_DIRECTORY ++ "/a/b.txt", some "hello")]
    emptyDirs := [] }

/-- A project whose assignment-files directory holds an unreadable file: the
failing input for claim C8. -/
def fsBad : FileSystem :=
  { files := [(ASSIGNMENT_CONFIG_FILE, some "config-contents"),
              (ASSIGNMENT_FILES_DIRECTORY ++ "/data.txt", none)]
    emptyDirs := [] }

/-- The entries `write_zip` produces for `fsDemo`. -/
def demoEntries : List ZipEntry :=
  [(ASSIGNMENT_CONFIG_FILE, "autograder-config"),
   (ASSIGNMENT_FILES_DIRECTORY ++ "/a/b.txt", "hello"),
   ("setup.sh", SETUP_SH), ("run_autograder", RUN_AUTOGRADER)]

/-! ## Lemmas and claim theorems -/

lemma string_empty_append (s : String) : "" ++ s = s := by
  cases s
  rfl

lemma penaltyItem_def (g : Grade) (p : Penalty) :
    GradescopeAutograderTestOutput.init (some p.name)
      (some (g.to_float p.points_delta)) none none = penaltyItemSpec p := rfl

lemma penaltyTests_eq (g : Grade) (ps : List Penalty) :
    penaltyTests g ps =
      (ps.filter fun p => decide (p.points_delta.toRat ≠ 0)).map penaltyItemSpec := by
  induction ps with
  | nil => rfl
  | cons p rest ih =>
      by_cases h : p.points_delta.toRat = 0
      · simp [penaltyTests, List.filter_cons, h, ih]
      · simp [penaltyTests, List.filter_cons, h, ih, penaltyItem_def]

lemma partTest_eq (g : Grade) (c : Component) (p : Part) :
    partTest g c p = partItemSpec p := by
  unfold partTest partItemSpec partOutputSpec GradescopeAutograderTestOutput.init
  by_cases h : p.deductions = []
  · simp [h, Grade.to_float, pyFloat, PyNum.toRat, string_empty_append]
  · simp [h, Grade.to_float, pyFloat, PyNum.toRat, String.append_assoc]

lemma componentTests_eq (g : Grade) (cs : List Component) :
    componentTests g cs = (cs.map fun c => c.parts.map partItemSpec).flatten := by
  induction cs with
  | nil => rfl
  | cons c rest ih =>
      have hc : partTest g c = fun p => partItemSpec p := funext (partTest_eq g c)
      simp [componentTests, ih, hc]

lemma map_none_eq_replicate {α β : Type} (l : List α) :
    l.map (fun _ => (none : Option β)) = List.replicate l.length none := by
  induction l with
  | nil => rfl
  | cons a l ih => simp [ih, List.replicate_succ]

lemma penaltyTests_outputs (g : Grade) (ps : List Penalty) :
    (penaltyTests g ps).map (fun t => t.output) =
      List.replicate
        ((ps.filter fun p => decide (p.points_delta.toRat ≠ 0)).length) none := by
  rw [penaltyTests_eq, List.map_map]
  have h : ((fun t : GradescopeAutograderTestOutput => t.output) ∘ penaltyItemSpec) =
      fun _ : Penalty => (none : Option String) := funext fun _ => rfl
  rw [h, map_none_eq_replicate]

lemma componentTests_outputs (g : Grade) (cs : List Component) :
    (componentTests g cs).map (fun t => t.output) =
      (cs.map fun c => c.parts.map fun p => some (partOutputSpec p)).flatten := by
  rw [componentTests_eq, List.map_flatten, List.map_map]
  congr 1
  congr 1
  funext c
  show (c.parts.map partItemSpec).map (fun t => t.output) = _
  rw [List.map_map]
  have h : ((fun t : GradescopeAutograderTestOutput => t.output) ∘ partItemSpec) =
      fun p : Part => some (partOutputSpec p) := funext fun _ => rfl
  rw [h]

/-! ## Claims C1–C4 and C9 -/

/-- C1: the claim says the line item built for part `"Part 1"` of component
`"Warmup"` has name `"Warmup: Part 1"`.  The code computes and passes that
string, but `GradescopeAutograderTestOutput.__init__` never assigns
`self.name`, so the produced line item has no name at all — neither on the
object nor in its encoded config dict. -/
theorem c1_name_dropped :
    ((GradescopeAutograderOutput.from_grade warmupGrade).tests.getD []).map
        (fun t => t.name) = [none] ∧
      ((GradescopeAutograderOutput.from_grade warmupGrade).tests.getD []).map
        (fun t => jsonGet t.to_config_dict "name") = [none] := by
  exact ⟨rfl, rfl⟩

/-- C2: in the flattened document, the zero-delta penalties produce no line
item and each non-zero one produces exactly one, in source order, whose score
is the float-coerced delta and whose `max_score` and `output` are absent
(`penaltyItemSpec`); the part items follow. -/
theorem c2_penalty_line_items (g : Grade) :
    ∃ partItems,
      (GradescopeAutograderOutput.from_grade g).tests =
        some (((g.computed_grade.penalties.filter
            fun p => decide (p.points_delta.toRat ≠ 0)).map penaltyItemSpec) ++
          partItems) :=
  ⟨componentTests g g.computed_grade.components, by
    simp [GradescopeAutograderOutput.from_grade, GradescopeAutograderOutput.init,
      penaltyTests_eq]⟩

/-- C3: the outputs of the flattened line items are: `none` for every penalty
item, and for every part — component order, part order — exactly the rendered
deduction string (`partOutputSpec`): the `"Deductions: "`-joined prefix plus
log when the deduction list is non-empty, exactly the log otherwise; a part
with empty log and deductions gets the present empty string, never an absent
field. -/
theorem c3_part_output (g : Grade) :
    (∃ k, ((GradescopeAutograderOutput.from_grade g).tests.getD []).map
          (fun t => t.output) =
        List.replicate k none ++
          (g.computed_grade.components.map
            fun c => c.parts.map fun p => some (partOutputSpec p)).flatten) ∧
      (∀ nm pg pp, partOutputSpec
          { name := nm, points_got := pg, points_possible := pp,
            deductions := [], log := "" } = "") ∧
      (∀ nm pg pp lg ds, ds ≠ [] → partOutputSpec
          { name := nm, points_got := pg, points_possible := pp,
            deductions := ds, log := lg } =
        "Deductions: " ++ String.intercalate ", " ds ++ "\n\n" ++ lg) := by
  refine ⟨⟨(g.computed_grade.penalties.filter
      fun p => decide (p.points_delta.toRat ≠ 0)).length, ?_⟩, ?_, ?_⟩
  · show (penaltyTests g g.computed_grade.penalties ++
        componentTests g g.computed_grade.components).map (fun t => t.output) = _
    rw [List.map_append, penaltyTests_outputs, componentTests_outputs]
  · intro nm pg pp
    simp [partOutputSpec]
  · intro nm pg pp lg ds hds
    simp [partOutputSpec, hds]

/-- C4: the flattened line-item sequence is exactly the non-zero penalties in
source order followed by one item per part, in component order then part
order; the number of part items is the total number of parts. -/
theorem c4_item_order_and_count (g : Grade) :
    (GradescopeAutograderOutput.from_grade g).tests =
      some (((g.computed_grade.penalties.filter
            fun p => decide (p.points_delta.toRat ≠ 0)).map penaltyItemSpec) ++
        (g.computed_grade.components.map fun c => c.parts.map partItemSpec).flatten) ∧
      ((GradescopeAutograderOutput.from_grade g).tests.getD []).length =
        (g.computed_grade.penalties.filter
            fun p => decide (p.points_delta.toRat ≠ 0)).length +
          (g.computed_grade.components.map fun c => c.parts.length).sum := by
  constructor
  · simp [GradescopeAutograderOutput.from_grade, GradescopeAutograderOutput.init,
      penaltyTests_eq, componentTests_eq]
  · simp only [GradescopeAutograderOutput.from_grade, GradescopeAutograderOutput.init,
      penaltyTests_eq, componentTests_eq, Option.getD_some, List.length_append,
      List.length_map, List.length_flatten, List.map_map]
    congr 1
    congr 1
    congr 1
    funext c
    simp

/-- C9: the document's top-level score is exactly the value `grade.score()`
returned, stored with no float coercion, while every line item's `score` and
`max_score`, when present, is a float-coerced value. -/
theorem c9_score_passthrough (g : Grade) :
    (GradescopeAutograderOutput.from_grade g).score = some g.score ∧
      (((GradescopeAutograderOutput.from_grade g).tests.getD []).all
          fun t => t.score.all PyNum.isFloat && t.max_score.all PyNum.isFloat) =
        true := by
  refine ⟨rfl, ?_⟩
  simp only [GradescopeAutograderOutput.from_grade, GradescopeAutograderOutput.init,
    Option.getD_some, List.all_append, Bool.and_eq_true, penaltyTests_eq,
    componentTests_eq, List.all_eq_true]
  constructor
  · intro t ht
    rcases List.mem_map.mp ht with ⟨p, _, rfl⟩
    simp [penaltyItemSpec, PyNum.isFloat]
  · intro t ht
    rcases List.mem_flatten.mp ht with ⟨l, hl, htl⟩
    rcases List.mem_map.mp hl with ⟨c, _, rfl⟩
    rcases List.mem_map.mp htl with ⟨p, _, rfl⟩
    simp [partItemSpec, PyNum.isFloat]

/-! ## Claim C5: encoding of the `tests` key -/

/-- C5 counterexample: a document whose line-item sequence is present but
empty still encodes with a `"tests"` key, bound to the empty array — the base
mixin only omits absent (`None`) attributes, and the visible override in
`to_config_dict` merely skips the rewrite for a falsy value instead of
deleting the key.  The claim says such a document encodes with no `"tests"`
key at all. -/
theorem c5_empty_tests_key_present :
    jsonGet (GradescopeAutograderOutput.init none (some []) none).to_config_dict
        "tests" = some (JsonVal.arr []) ∧
      (jsonGet (GradescopeAutograderOutput.init none (some []) none).to_config_dict
        "tests").isSome = true := ⟨rfl, rfl⟩

/-- C5 (amended): a document with an absent (`None`) line-item sequence
encodes with no `"tests"` key; a document with a present sequence — empty or
not — encodes with a `"tests"` key bound to the array of encoded line items
(the empty array when the sequence is empty). -/
theorem c5_tests_key (d : GradescopeAutograderOutput) :
    (d.tests = none → jsonGet d.to_config_dict "tests" = none) ∧
      (∀ ts, d.tests = some ts →
        jsonGet d.to_config_dict "tests" =
          some (JsonVal.arr (ts.map fun t => JsonVal.obj t.to_config_dict))) := by
  obtain ⟨s, t, e⟩ := d
  constructor
  · intro h
    cases h
    cases s <;> cases e <;>
      simp [GradescopeAutograderOutput.to_config_dict, jsonGet]
  · intro ts h
    cases h
    cases s <;> cases e <;>
      simp [GradescopeAutograderOutput.to_config_dict, jsonGet]

/-! ## Claim C6: metadata parsing (`GradescopeMetadata`) -/

/-- C6 counterexample: the claim says the parser fails with `SchemaError` when
a value is not integer-representable, but Python's `int()` truncates numeric
values: an `id` of 5/2 (the JSON number 2.5, not integer-representable — its
reduced denominator is 2, not 1) parses successfully to `id = 2`. -/
theorem c6_truncates_noninteger :
    GradescopeMetadata.ofJson
        [("id", JsonVal.num (PyNum.float (mkRat 5 2))),
         ("created_at", JsonVal.str "2021-01-01T00:00:00Z"),
         ("assignment_id", JsonVal.num (PyNum.rat (mkRat 7 1)))] =
      Except.ok
        { id := 2
          created_at := { year := 2021, month := 1, day := 1,
                          hour := 0, minute := 0, second := 0 }
          assignment_id := 7 } ∧
      (PyNum.float (mkRat 5 2)).toRat.den ≠ 1 := by
  exact ⟨rfl, by decide⟩

/-- C6 (amended): any missing required key makes the parser fail (never a
silent default); a successful parse means `id` and `assignment_id` were
coerced with Python `int` semantics — which truncates numeric values rather
than failing on non-integer ones, see the counterexample — and `created_at`
was parsed from the timestamp string; a value `int` rejects, a non-string or
unparsable `created_at`, each makes the parser fail. -/
theorem c6_metadata_parse (j : List (String × JsonVal)) :
    ((jsonGet j "id").isNone ∨ (jsonGet j "created_at").isNone ∨
        (jsonGet j "assignment_id").isNone →
      (GradescopeMetadata.ofJson j).isOk = false) ∧
      (∀ m, GradescopeMetadata.ofJson j = .ok m →
        ∃ v1 v3 s, jsonGet j "id" = some v1 ∧ pyInt v1 = some m.id ∧
          jsonGet j "created_at" = some (JsonVal.str s) ∧
          datetime_from_string s = some m.created_at ∧
          jsonGet j "assignment_id" = some v3 ∧ pyInt v3 = some m.assignment_id) ∧
      (∀ v, jsonGet j "id" = some v → pyInt v = none →
        (GradescopeMetadata.ofJson j).isOk = false) ∧
      (∀ v, jsonGet j "created_at" = some v →
        (∀ s, v = JsonVal.str s → datetime_from_string s = none) →
        (GradescopeMetadata.ofJson j).isOk = false) ∧
      (∀ v, jsonGet j "assignment_id" = some v → pyInt v = none →
        (GradescopeMetadata.ofJson j).isOk = false) := by
  refine ⟨?_, ?_, ?_, ?_, ?_⟩
  · intro h
    unfold GradescopeMetadata.ofJson
    rcases h with h | h | h <;> rw [Option.isNone_iff_eq_none] at h <;>
      repeat' split
    all_goals simp_all [Except.isOk, Except.toBool]
  · intro m hm
    unfold GradescopeMetadata.ofJson at hm
    repeat' split at hm
    all_goals first
      | exact Except.noConfusion hm
      | (injection hm with hm
         subst hm
         exact ⟨_, _, _, by assumption, by assumption, by assumption,
           by assumption, by assumption, by assumption⟩)
  · intro v hv hnone
    unfold GradescopeMetadata.ofJson
    repeat' split
    all_goals simp_all [Except.isOk, Except.toBool]
  · intro v hv hbad
    unfold GradescopeMetadata.ofJson
    repeat' split
    all_goals simp_all [Except.isOk, Except.toBool]
  · intro v hv hnone
    unfold GradescopeMetadata.ofJson
    repeat' split
    all_goals simp_all [Except.isOk, Except.toBool]

lemma writeWalked_ok (l : List (String × Option String))
    (h : ∀ e ∈ l, e.2 ≠ none) : (writeWalked l).2 = true := by
  induction l with
  | nil => rfl
  | cons e rest ih =>
      obtain ⟨p, o⟩ := e
      cases o with
      | none => exact absurd rfl (h (p, none) (List.mem_cons_self _ _))
      | some c =>
          simpa [writeWalked] using ih fun x hx => h x (List.mem_cons_of_mem _ hx)

lemma writeWalked_map (l : List (String × Option String))
    (h : (writeWalked l).2 = true) :
    (writeWalked l).1.map (fun e => (e.1, some e.2)) = l := by
  induction l with
  | nil => rfl
  | cons e rest ih =>
      obtain ⟨p, o⟩ := e
      cases o with
      | none => simp [writeWalked] at h
      | some c =>
          simp only [writeWalked] at h ⊢
          rw [List.map_cons, ih h]

lemma writeWalked_mem (l : List (String × Option String)) (p : String)
    (c : String) (h : (p, c) ∈ (writeWalked l).1) : (p, some c) ∈ l := by
  induction l with
  | nil => simp [writeWalked] at h
  | cons e rest ih =>
      obtain ⟨q, o⟩ := e
      cases o with
      | none => simp [writeWalked] at h
      | some d =>
          simp only [writeWalked, List.mem_cons, Prod.mk.injEq] at h
          rcases h with ⟨hp, hc⟩ | h
          · subst hp; subst hc; exact List.mem_cons_self _ _
          · exact List.mem_cons_of_mem _ (ih h)

lemma run_autograder_not_walked (fs : FileSystem) (c : String) :
    ("run_autograder", c) ∉
      (writeWalked (if fs.dirExists ASSIGNMENT_FILES_DIRECTORY then
        fs.walkFiles ASSIGNMENT_FILES_DIRECTORY else [])).1 := by
  intro hmem
  have h1 := writeWalked_mem _ _ _ hmem
  by_cases hd : fs.dirExists ASSIGNMENT_FILES_DIRECTORY
  · rw [if_pos hd] at h1
    have h2 : isUnder ASSIGNMENT_FILES_DIRECTORY "run_autograder" = true :=
      (List.mem_filter.mp h1).2
    exact absurd h2 (by decide)
  · rw [if_neg hd] at h1
    simp at h1

/-! ## Claims C7, C8 and C10 -/

/-- C7: when the config file is readable and every file of the project tree
is readable, assembly succeeds and the archive contains the config file at its
relative path, every file walked under the assignment-files directory with
matching content, and `setup.sh` and `run_autograder` with the exact script
contents; and when the assignment-files directory does not exist, the archive
is exactly the config file and the two scripts. -/
theorem c7_archive (fs : FileSystem) (cfg : String)
    (hcfg : fs.readFile ASSIGNMENT_CONFIG_FILE = some cfg)
    (hread : ∀ e ∈ fs.files, e.2 ≠ none) :
    ∃ entries, (write_zip fs).1 = Except.ok entries ∧
      (ASSIGNMENT_CONFIG_FILE, cfg) ∈ entries ∧
      (∀ p c, (p, some c) ∈ fs.walkFiles ASSIGNMENT_FILES_DIRECTORY →
        (p, c) ∈ entries) ∧
      ("setup.sh", SETUP_SH) ∈ entries ∧
      ("run_autograder", RUN_AUTOGRADER) ∈ entries ∧
      (fs.dirExists ASSIGNMENT_FILES_DIRECTORY = false →
        entries = [(ASSIGNMENT_CONFIG_FILE, cfg),
          ("setup.sh", SETUP_SH), ("run_autograder", RUN_AUTOGRADER)]) := by
  have hw : ∀ e ∈ (if fs.dirExists ASSIGNMENT_FILES_DIRECTORY then
      fs.walkFiles ASSIGNMENT_FILES_DIRECTORY else []), e.2 ≠ none := by
    intro e he
    by_cases hd : fs.dirExists ASSIGNMENT_FILES_DIRECTORY
    · rw [if_pos hd] at he
      exact hread e (List.mem_filter.mp he).1
    · rw [if_neg hd] at he
      simp at he
  have hok := writeWalked_ok _ hw
  have hmap := writeWalked_map _ hok
  refine ⟨(ASSIGNMENT_CONFIG_FILE, cfg) ::
      (writeWalked (if fs.dirExists ASSIGNMENT_FILES_DIRECTORY then
        fs.walkFiles ASSIGNMENT_FILES_DIRECTORY else [])).1 ++
      [("setup.sh", SETUP_SH), ("run_autograder", RUN_AUTOGRADER)],
    ?_, ?_, ?_, ?_, ?_, ?_⟩
  · simp only [write_zip, hcfg, hok, if_true]
  · exact List.mem_cons_self _ _
  · intro p c hpc
    have hdir : fs.dirExists ASSIGNMENT_FILES_DIRECTORY = true := by
      have hf := List.mem_filter.mp hpc
      simp only [FileSystem.dirExists, Bool.or_eq_true, List.any_eq_true]
      exact Or.inr ⟨(p, some c), hf.1, hf.2⟩
    have hw2 : (p, some c) ∈ (if fs.dirExists ASSIGNMENT_FILES_DIRECTORY then
        fs.walkFiles ASSIGNMENT_FILES_DIRECTORY else []) := by
      rw [if_pos hdir]; exact hpc
    rw [← hmap] at hw2
    rcases List.mem_map.mp hw2 with ⟨⟨p2, c2⟩, hw3, heq⟩
    simp only [Prod.mk.injEq, Option.some.injEq] at heq
    obtain ⟨hp2, hc2⟩ := heq
    subst hp2; subst hc2
    exact List.mem_cons_of_mem _ (List.mem_append_left _ hw3)
  · exact List.mem_cons_of_mem _ (List.mem_append_right _ (by simp))
  · exact List.mem_cons_of_mem _ (List.mem_append_right _ (by simp))
  · intro hdf
    rw [hdf]
    simp [writeWalked]

/-- Witness for C7 at `fsDemo`. -/
theorem c7_archive_witness :
    fsDemo.readFile ASSIGNMENT_CONFIG_FILE = some "autograder-config" ∧
      (∀ e ∈ fsDemo.files, e.2 ≠ none) ∧
      (∃ entries, (write_zip fsDemo).1 = Except.ok entries ∧
        (ASSIGNMENT_CONFIG_FILE, "autograder-config") ∈ entries ∧
        (∀ p c, (p, some c) ∈ fsDemo.walkFiles ASSIGNMENT_FILES_DIRECTORY →
          (p, c) ∈ entries) ∧
        ("setup.sh", SETUP_SH) ∈ entries ∧
        ("run_autograder", RUN_AUTOGRADER) ∈ entries ∧
        (fsDemo.dirExists ASSIGNMENT_FILES_DIRECTORY = false →
          entries = [(ASSIGNMENT_CONFIG_FILE, "autograder-config"),
            ("setup.sh", SETUP_SH), ("run_autograder", RUN_AUTOGRADER)])) :=
  ⟨rfl, by decide, c7_archive fsDemo "autograder-config" rfl (by decide)⟩

/-- C8 counterexample: an unreadable file during the walk aborts the assembly
with an `IOError`, but the destination file — created and truncated when the
zip was opened — is left holding a partial archive (here: the config entry
only), refuting "no partial, corrupt, or truncated archive file is left at the
destination path". -/
theorem c8_partial_archive_left :
    (write_zip fsBad).1 = Except.error ZipError.ioFailure ∧
      (write_zip fsBad).2 = [(ASSIGNMENT_CONFIG_FILE, "config-contents")] := by
  exact ⟨rfl, rfl⟩

/-- C8 (amended): any I/O failure during assembly aborts it — the error
propagates and none of the remaining entries is written — but the destination
file was already created and truncated when the zip was opened, so a partial
archive (one missing the final `run_autograder` entry) is left at the
destination on failure; on success the destination holds exactly the finished
archive. -/
theorem c8_abort_behaviour (fs : FileSystem) :
    (write_zip fs).1 = Except.ok (write_zip fs).2 ∨
      ((write_zip fs).1 = Except.error ZipError.ioFailure ∧
        ("run_autograder", RUN_AUTOGRADER) ∉ (write_zip fs).2) := by
  cases hr : fs.readFile ASSIGNMENT_CONFIG_FILE with
  | none =>
      right
      constructor
      · simp only [write_zip, hr]
      · simp only [write_zip, hr]
        simp
  | some cfg =>
      by_cases hb : (writeWalked (if fs.dirExists ASSIGNMENT_FILES_DIRECTORY then
          fs.walkFiles ASSIGNMENT_FILES_DIRECTORY else [])).2 = true
      · left
        simp only [write_zip, hr, hb, if_true]
      · right
        constructor
        · simp only [write_zip, hr, hb, if_false, Bool.false_eq_true]
        · simp only [write_zip, hr, hb, if_false, Bool.false_eq_true]
          intro hmem
          rcases List.mem_cons.mp hmem with heq | hmem2
          · have : "run_autograder" = ASSIGNMENT_CONFIG_FILE :=
              congrArg Prod.fst heq
            exact absurd this (by decide)
          · exact run_autograder_not_walked fs RUN_AUTOGRADER hmem2

/-- C10: a successfully assembled archive lists its entries in the fixed
order: the config file first, then the walked assignment files in walk order
(nothing when the directory does not exist), then `setup.sh`, then
`run_autograder` last. -/
theorem c10_entry_order (fs : FileSystem) (entries : List ZipEntry)
    (h : (write_zip fs).1 = Except.ok entries) :
    ∃ cfg mids, fs.readFile ASSIGNMENT_CONFIG_FILE = some cfg ∧
      entries = (ASSIGNMENT_CONFIG_FILE, cfg) :: mids ++
        [("setup.sh", SETUP_SH), ("run_autograder", RUN_AUTOGRADER)] ∧
      mids.map (fun e => (e.1, some e.2)) =
        (if fs.dirExists ASSIGNMENT_FILES_DIRECTORY then
          fs.walkFiles ASSIGNMENT_FILES_DIRECTORY else []) := by
  cases hr : fs.readFile ASSIGNMENT_CONFIG_FILE with
  | none =>
      rw [show write_zip fs = (.error .ioFailure, []) by
        simp only [write_zip, hr]] at h
      exact Except.noConfusion h
  | some cfg =>
      by_cases hb : (writeWalked (if fs.dirExists ASSIGNMENT_FILES_DIRECTORY then
          fs.walkFiles ASSIGNMENT_FILES_DIRECTORY else [])).2 = true
      · refine ⟨cfg,
          (writeWalked (if fs.dirExists ASSIGNMENT_FILES_DIRECTORY then
            fs.walkFiles ASSIGNMENT_FILES_DIRECTORY else [])).1, rfl, ?_,
          writeWalked_map _ hb⟩
        simp only [write_zip, hr, hb, if_true] at h
        injection h with h
        exact h.symm
      · simp only [write_zip, hr, hb, if_false, Bool.false_eq_true] at h
        exact Except.noConfusion h

/-- Witness for C10 at `fsDemo`. -/
theorem c10_entry_order_witness :
    (write_zip fsDemo).1 = Except.ok demoEntries ∧
      (∃ cfg mids, fsDemo.readFile ASSIGNMENT_CONFIG_FILE = some cfg ∧
        demoEntries = (ASSIGNMENT_CONFIG_FILE, cfg) :: mids ++
          [("setup.sh", SETUP_SH), ("run_autograder", RUN_AUTOGRADER)] ∧
        mids.map (fun e => (e.1, some e.2)) =
          (if fsDemo.dirExists ASSIGNMENT_FILES_DIRECTORY then
            fsDemo.walkFiles ASSIGNMENT_FILES_DIRECTORY else [])) :=
  ⟨rfl, c10_entry_order fsDemo demoEntries rfl⟩

end Zucchini
